import Mathlib

/-!
Verification of the deal-finder pipeline (`kleinanzeigen.py`).

The Python source is shallowly embedded: Python `str` is Lean `String`,
Python's substring operator `in` is an explicit `substr` check, Python
`float` prices are modelled as `ℚ`, Python `set` is `Finset`, fallible
parsing returns `Except`/`Option`, and the side-effecting seen-state file
is explicit state passing over a `StoreState` value (its JSON content as
parsed data, since the `json` module is an external collaborator).
Network fetching is a pure function parameter (the "candidate source"
boundary of the spec).
-/

deriving instance DecidableEq for Except

namespace DealFinder

/-- Python substring test on character lists: `substrL n h` is `n in h`
(contiguous subsequence; the empty needle is always found). -/
def substrL (needle : List Char) : List Char → Bool
  | [] => needle.isEmpty
  | c :: t => needle.isPrefixOf (c :: t) || substrL needle t

/-- Python `needle in hay` for strings. -/
def substr (needle hay : String) : Bool :=
  substrL needle.toList hay.toList

/-- Characters stripped by Python `str.strip()` (whitespace, including
vertical tab, form feed and the non-breaking space). -/
def pyIsSpace (c : Char) : Bool :=
  c.isWhitespace || c == '\x0b' || c == '\x0c' || c == '\u00A0'

/-- Python `str.strip()`. -/
def pystrip (s : String) : String :=
  String.mk (((s.toList.dropWhile pyIsSpace).reverse.dropWhile pyIsSpace).reverse)

/-- Python `str.lower()` (per-character lowering, as `str.lower` does on
the ASCII range these inputs use). -/
def pylower (s : String) : String :=
  String.mk (s.toList.map Char.toLower)

/-- `DEFAULT_TITLE_BLACKLIST` from the source: titles that usually indicate
a full PC / setup / bundle, not a single item. -/
def DEFAULT_TITLE_BLACKLIST : List String :=
  ["gaming pc", "pc ", " setup", "bundle", "komplett", "rechner",
   "fertig", "wasserkühlung", "wasserkuehlung"]

/-- One iteration of the blacklist loops in `is_blacklisted_title`:
entry `bad` causes exclusion iff it is not in the lowered search term
but is in the lowered title. -/
def entryFires (bad term_lower t : String) : Bool :=
  !(substr bad term_lower) && substr bad t

/-- The hard-coded gaming-PC rule of `is_blacklisted_title`: the lowered
title contains "gaming" together with "pc" or "setup", and the lowered
search term contains none of "gaming", "pc", "setup". -/
def gamingFires (t term_lower : String) : Bool :=
  substr "gaming" t && (substr "pc" t || substr "setup" t)
    && !(substr "gaming" term_lower) && !(substr "pc" term_lower)
    && !(substr "setup" term_lower)

/-- `is_blacklisted_title(title, search_term, extra_blacklist)`: the
source's early-returning loops expressed as a disjunction. -/
def is_blacklisted_title (title search_term : String)
    (extra_blacklist : List String) : Bool :=
  let t := (pylower title)
  let term_lower := (pylower search_term)
  gamingFires t term_lower
    || DEFAULT_TITLE_BLACKLIST.any (fun bad => entryFires bad term_lower t)
    || extra_blacklist.any (fun bad => entryFires (pylower bad) term_lower t)

/-- Value of a list of decimal digit characters. -/
def digitsToNat (cs : List Char) : Nat :=
  cs.foldl (fun acc c => acc * 10 + (c.toNat - 48)) 0

/-- The optional `(?:[\.,]\d{1,2})?` tail of the price regex: a separator
`.` or `,` followed greedily by one or two digits, or nothing. -/
def sepPart : List Char → List Char
  | s :: d1 :: t =>
    if (s == '.' || s == ',') && d1.isDigit then
      match t with
      | d2 :: _ => if d2.isDigit then [s, d1, d2] else [s, d1]
      | [] => [s, d1]
    else []
  | _ => []

/-- `re.search(r"(\d+(?:[\.,]\d{1,2})?)", text)`: leftmost match, `\d+`
greedy, then the optional separator tail. Returns the matched run. -/
def findNumRun : List Char → Option (List Char)
  | [] => none
  | c :: rest =>
    if c.isDigit then
      some ((c :: rest).takeWhile Char.isDigit
        ++ sepPart ((c :: rest).dropWhile Char.isDigit))
    else findNumRun rest

/-- Python `float(s)` restricted to the decimal forms that arise here:
optional sign, digits with at most one `.` (at least one digit overall).
Exotic accepted forms of CPython (`inf`, exponents) are not modelled;
they cannot be produced by the callers below. -/
def pyfloatCore (cs : List Char) : Option ℚ :=
  let intPart := cs.takeWhile Char.isDigit
  let rest := cs.dropWhile Char.isDigit
  match rest with
  | [] => if intPart.isEmpty then none else some (mkRat (digitsToNat intPart) 1)
  | '.' :: frac =>
    if frac.all Char.isDigit && !(intPart.isEmpty && frac.isEmpty) then
      some (mkRat (digitsToNat intPart * 10 ^ frac.length + digitsToNat frac)
        (10 ^ frac.length))
    else none
  | _ => none

/-- Python `float(s)` on a string (strips, handles an optional sign). -/
def pyfloat (s : String) : Option ℚ :=
  match (pystrip s).toList with
  | '+' :: r => pyfloatCore r
  | '-' :: r => (pyfloatCore r).map Neg.neg
  | r => pyfloatCore r

/-- `parse_price(text)`: strip; empty or give-away/trade phrasing has no
price; search the first numeric run; drop all `.`, turn `,` into `.`,
parse as a number. -/
def parse_price (text : String) : Option ℚ :=
  let text := pystrip text
  if text = "" then none
  else if substr "zu verschenken" (pylower text) || substr "tausch" (pylower text) then
    none
  else
    match findNumRun (text.toList.map (fun c => if c == '\u00A0' then ' ' else c)) with
    | none => none
    | some run =>
      let val := (run.filter (fun c => !(c == '.'))).map
        (fun c => if c == ',' then '.' else c)
      pyfloatCore val

/-- The `Listing` dataclass (price as `ℚ`). -/
structure Listing where
  title : String
  price : ℚ
  location : String
  url : String
  term : String
deriving DecidableEq, Repr

/-- The `SearchTermConfig` dataclass: a term with optional price bounds. -/
structure SearchTermConfig where
  term : String
  min_price : Option ℚ := none
  max_price : Option ℚ := none
deriving DecidableEq, Repr

/-- Python `s.split(sep)` on character lists, for a one-character
separator: the list of chunks between occurrences of `sep` (empty chunks
included, as in Python). -/
def splitOnChar (sep : Char) : List Char → List (List Char)
  | [] => [[]]
  | c :: rest =>
    if c == sep then [] :: splitOnChar sep rest
    else
      match splitOnChar sep rest with
      | h :: t => (c :: h) :: t
      | [] => [[c]]

/-- Rejoin chunks with the separator (the remainder after the first
split point). -/
def joinWithChar (sep : Char) : List (List Char) → List Char
  | [] => []
  | [x] => x
  | x :: rest => x ++ sep :: joinWithChar sep rest

/-- Python `s.split(sep)` for a one-character separator. -/
def pysplit (s : String) (sep : Char) : List String :=
  (splitOnChar sep s.toList).map String.mk

/-- Python `s.partition(sep)`: text before the first `sep`, whether `sep`
occurred, text after it. -/
def pypartition (s : String) (sep : Char) : String × Bool × String :=
  match splitOnChar sep s.toList with
  | [] => (s, false, "")
  | [x] => (String.mk x, false, "")
  | x :: rest => (String.mk x, true, String.mk (joinWithChar sep rest))

/-- Python `s.split(sep, 1)`: split at the first occurrence of `sep`
(used only when `sep` occurs in `s`). -/
def pysplit1 (s : String) (sep : Char) : String × String :=
  match splitOnChar sep s.toList with
  | [] => (s, "")
  | [x] => (String.mk x, "")
  | x :: rest => (String.mk x, String.mk (joinWithChar sep rest))

/-- Python `s.replace(",", ".")`. -/
def commaToDot (s : String) : String :=
  String.mk (s.toList.map (fun c => if c == ',' then '.' else c))

/-- `parse_search_term_arg(arg)`: grammar `term-group [: price-spec]`,
`ValueError` becomes `Except.error` (messages abbreviated). -/
def parse_search_term_arg (arg : String) : Except String (List SearchTermConfig) :=
  let parts := pypartition arg ':'
  let term_raw := pystrip parts.1
  if term_raw = "" then .error "empty term"
  else
    let term_variants := ((pysplit term_raw '|').map pystrip).filter (fun t => t ≠ "")
    if term_variants.isEmpty then .error "empty term"
    else if !parts.2.1 then .ok (term_variants.map (fun t => { term := t }))
    else
      let price_str := pystrip parts.2.2
      if price_str = "" then .error "missing price after colon"
      else if price_str.toList.contains '-' then
        let halves := pysplit1 price_str '-'
        let low_str := pystrip halves.1
        let high_str := pystrip halves.2
        if low_str = "" || high_str = "" then .error "invalid price range"
        else
          match pyfloat (commaToDot low_str), pyfloat (commaToDot high_str) with
          | some local_min, some local_max =>
            if local_max < local_min then .error "invalid price range: max smaller than min"
            else .ok (term_variants.map (fun t =>
              { term := t, min_price := some local_min, max_price := some local_max }))
          | _, _ => .error "invalid price range"
      else
        match pyfloat (commaToDot price_str) with
        | some local_min => .ok (term_variants.map (fun t =>
            { term := t, min_price := some local_min, max_price := none }))
        | none => .error "invalid price"

/-- `cfg.min_price if cfg.min_price is not None else min_price`. -/
def effective_min (cfg : SearchTermConfig) (gmin : Option ℚ) : Option ℚ :=
  match cfg.min_price with
  | some v => some v
  | none => gmin

/-- `cfg.max_price if cfg.max_price is not None else max_price`. -/
def effective_max (cfg : SearchTermConfig) (gmax : Option ℚ) : Option ℚ :=
  match cfg.max_price with
  | some v => some v
  | none => gmax

/-- The per-listing price filter inside `find_matching_listings`: the
listing is kept unless it is below the effective minimum or above the
effective maximum. -/
def pricePass (cfg : SearchTermConfig) (gmin gmax : Option ℚ) (l : Listing) : Bool :=
  (match effective_min cfg gmin with
   | some m => !(decide (l.price < m))
   | none => true)
  && (match effective_max cfg gmax with
      | some m => !(decide (m < l.price))
      | none => true)

/-- One term's contribution to `all_hits`: the fetched listings filtered
by price; a fetch failure is caught and contributes nothing. The fetch
(including the title filter applied inside `fetch_listings_for_term`) is
the external candidate-source boundary, passed as a pure function. -/
def survivorsForTerm (fetch : String → Except String (List Listing))
    (cfg : SearchTermConfig) (gmin gmax : Option ℚ) : List Listing :=
  match fetch cfg.term with
  | .error _ => []
  | .ok listings => listings.filter (pricePass cfg gmin gmax)

/-- The deduplication loop of `find_matching_listings`, with the set of
already-seen URLs made explicit. -/
def dedupGo : List Listing → List String → List Listing
  | [], _ => []
  | l :: rest, seen =>
    if l.url ∈ seen then dedupGo rest seen
    else l :: dedupGo rest (l.url :: seen)

/-- Deduplicate by URL, keeping first occurrences. -/
def dedupByUrl (hits : List Listing) : List Listing :=
  dedupGo hits []

/-- The comparison induced by `key=lambda x: x.price`. -/
def priceLe (a b : Listing) : Bool :=
  decide (a.price ≤ b.price)

/-- `sorted(unique_hits, key=lambda x: x.price)`: Python `sorted` is a
stable ascending sort, modelled by `List.mergeSort`. -/
def sortByPrice (hits : List Listing) : List Listing :=
  hits.mergeSort priceLe

/-- `find_matching_listings`: per-term survivors concatenated in argument
order, deduplicated by URL, sorted ascending by price. -/
def find_matching_listings (fetch : String → Except String (List Listing))
    (search_terms : List SearchTermConfig) (gmin gmax : Option ℚ) : List Listing :=
  sortByPrice (dedupByUrl
    (search_terms.flatMap (fun cfg => survivorsForTerm fetch cfg gmin gmax)))

/-- A value produced by `json.loads` (the `json` module is an external
collaborator; its parser is not re-modelled). -/
inductive PyJson where
  | str (s : String)
  | num (q : ℚ)
  | boolean (b : Bool)
  | null
  | arr (items : List PyJson)
  | obj (fields : List (String × PyJson))

/-- Python `str(item)` on a `json.loads` value. Only the `str` case is
relied on below; the renderings of composite values are placeholders. -/
def pyStr : PyJson → String
  | .str s => s
  | .num q => toString q
  | .boolean b => if b then "True" else "False"
  | .null => "None"
  | .arr _ => ""
  | .obj _ => ""

/-- Condition of the seen-state backing file, as observed through
`read_text` and `json.loads`. -/
inductive StoreState where
  | missing
  | unreadable
  | notJson (raw : String)
  | json (v : PyJson)

/-- `load_seen_urls()`: empty set on a missing or unreadable file, on
invalid JSON, or on JSON that is not a list; otherwise the set of
`str(item)` over the list items. Total — it never fails the caller. -/
def load_seen_urls : StoreState → Finset String
  | .missing => ∅
  | .unreadable => ∅
  | .notJson _ => ∅
  | .json v =>
    match v with
    | .arr items => (items.map pyStr).toFinset
    | _ => ∅

/-- `save_seen_urls(urls)`: writes `json.dumps(sorted(urls))`, i.e. the
stored state becomes a JSON array of the URLs in sorted order. -/
def save_seen_urls (urls : Finset String) : StoreState :=
  .json (.arr ((urls.sort (· ≤ ·)).map PyJson.str))

/-- Result of `filter_new_listings`: its return value, the state of the
backing file afterwards, and whether a write happened. -/
structure FilterResult where
  new_listings : List Listing
  store : StoreState
  wrote : Bool

/-- `filter_new_listings(listings)`: drop listings whose URL is in the
loaded seen set; if nothing is new, return `[]` without writing;
otherwise merge the new URLs into the seen set and save it. -/
def filter_new_listings (listings : List Listing) (store : StoreState) : FilterResult :=
  let seen := load_seen_urls store
  let new_listings := listings.filter (fun l => !(decide (l.url ∈ seen)))
  if new_listings.isEmpty then ⟨[], store, false⟩
  else ⟨new_listings,
    save_seen_urls (seen ∪ (new_listings.map (fun l => l.url)).toFinset), true⟩

/-- `run_once` in notify mode: compute matches, then filter against the
persisted seen state (the notification sinks receive `new_listings`). -/
def run_once_notify (fetch : String → Except String (List Listing))
    (search_terms : List SearchTermConfig) (gmin gmax : Option ℚ)
    (store : StoreState) : FilterResult :=
  filter_new_listings (find_matching_listings fetch search_terms gmin gmax) store

/-- Demo candidate source for the C8 witness (the spec's end-to-end
example: three candidates priced 50, 150 and 9999). -/
def demoListings8 : List Listing :=
  [⟨"cheap laptop", 50, "", "u1", "laptop"⟩,
   ⟨"good laptop", 150, "", "u2", "laptop"⟩,
   ⟨"pricey laptop", 9999, "", "u3", "laptop"⟩]

/-- The 150-priced listing of the C8 witness. -/
def demoListing8 : Listing := ⟨"good laptop", 150, "", "u2", "laptop"⟩

/-- Demo fetch function for the C8 witness. -/
def demoFetch8 : String → Except String (List Listing) :=
  fun _ => .ok demoListings8

/-- The `laptop:100-300` TermSpec of the C8 witness. -/
def demoCfg8 : SearchTermConfig :=
  { term := "laptop", min_price := some 100, max_price := some 300 }

/-- Demo listing for the C10 witness. -/
def demoListing10 : Listing := ⟨"thing", 5, "", "u", "q"⟩

/-- Demo store for the C10 witness: its URL list already contains "u". -/
def demoStore10 : StoreState := .json (.arr [.str "u"])

/-! ### Helper lemmas -/

theorem dedupGo_sublist (hits : List Listing) :
    ∀ seen : List String, List.Sublist (dedupGo hits seen) hits := by
  induction hits with
  | nil => intro seen; simp [dedupGo]
  | cons l rest ih =>
    intro seen
    rw [dedupGo]
    by_cases h : l.url ∈ seen
    · rw [if_pos h]
      exact (ih seen).cons l
    · rw [if_neg h]
      exact (ih (l.url :: seen)).cons₂ l

/-- Characterisation of the dedup loop: a listing is kept iff its URL is
not among the already-seen ones and it is the first listing of the input
carrying its URL. -/
theorem mem_dedupGo (x : Listing) (hits : List Listing) :
    ∀ seen : List String,
      (x ∈ dedupGo hits seen
        ↔ x.url ∉ seen ∧ hits.find? (fun y => y.url == x.url) = some x) := by
  induction hits with
  | nil => intro seen; simp [dedupGo]
  | cons l rest ih =>
    intro seen
    rw [dedupGo]
    by_cases hs : l.url ∈ seen
    · rw [if_pos hs, ih]
      by_cases hurl : l.url = x.url
      · constructor <;> (rintro ⟨hnot, -⟩; exact absurd (hurl ▸ hs) hnot)
      · have hstep : List.find? (fun y : Listing => y.url == x.url) (l :: rest)
            = List.find? (fun y : Listing => y.url == x.url) rest := by
          simp [List.find?_cons, hurl]
        rw [hstep]
    · rw [if_neg hs]
      by_cases hxl : x = l
      · subst hxl
        have hstep : List.find? (fun y : Listing => y.url == x.url) (x :: rest)
            = some x := by
          simp [List.find?_cons]
        rw [hstep]
        simp [hs]
      · rw [List.mem_cons, or_iff_right hxl, ih]
        by_cases hurl : l.url = x.url
        · constructor
          · rintro ⟨hnot, -⟩
            exact absurd (by rw [← hurl]; exact List.mem_cons_self _ _) hnot
          · rintro ⟨-, heq⟩
            have hstep : List.find? (fun y : Listing => y.url == x.url) (l :: rest)
                = some l := by
              simp [List.find?_cons, hurl]
            rw [hstep] at heq
            exact absurd (Option.some.inj heq).symm hxl
        · have hstep : List.find? (fun y : Listing => y.url == x.url) (l :: rest)
              = List.find? (fun y : Listing => y.url == x.url) rest := by
            simp [List.find?_cons, hurl]
          rw [hstep]
          have hmm : x.url ∉ (l.url :: seen) ↔ x.url ∉ seen := by
            constructor
            · intro hn hm
              exact hn (List.mem_cons_of_mem _ hm)
            · intro hn hm
              rcases List.mem_cons.mp hm with h | h
              · exact hurl h.symm
              · exact hn h
          rw [hmm]

theorem dedupGo_urls_nodup (hits : List Listing) :
    ∀ seen : List String, ((dedupGo hits seen).map (fun x => x.url)).Nodup := by
  induction hits with
  | nil => intro seen; simp [dedupGo]
  | cons l rest ih =>
    intro seen
    rw [dedupGo]
    by_cases hs : l.url ∈ seen
    · rw [if_pos hs]
      exact ih seen
    · rw [if_neg hs]
      simp only [List.map_cons, List.nodup_cons]
      refine ⟨?_, ih _⟩
      intro hmem
      rcases List.mem_map.mp hmem with ⟨y, hy, hyu⟩
      have hchar := (mem_dedupGo y rest (l.url :: seen)).mp hy
      exact hchar.1 (by rw [hyu]; exact List.mem_cons_self _ _)

theorem priceLe_trans (a b c : Listing) :
    priceLe a b → priceLe b c → priceLe a c := by
  simp only [priceLe, decide_eq_true_eq]
  exact le_trans

theorem priceLe_total (a b : Listing) : priceLe a b || priceLe b a := by
  simp only [priceLe, Bool.or_eq_true, decide_eq_true_eq]
  exact le_total _ _

theorem sortByPrice_perm (l : List Listing) : List.Perm (sortByPrice l) l :=
  List.mergeSort_perm l priceLe

theorem sortByPrice_sorted (l : List Listing) :
    (sortByPrice l).Pairwise (fun a b => a.price ≤ b.price) := by
  have h := List.sorted_mergeSort priceLe_trans priceLe_total l
  exact h.imp (fun hab => by simpa [priceLe] using hab)

/-- Stability of the price sort: for each price value, the listings at
that price appear in the sorted output exactly in their input order. -/
theorem sortByPrice_filter_price (l : List Listing) (p : ℚ) :
    (sortByPrice l).filter (fun x => decide (x.price = p))
      = l.filter (fun x => decide (x.price = p)) := by
  unfold sortByPrice
  have hA : List.Sublist (l.filter (fun x => decide (x.price = p)))
      (List.mergeSort l priceLe) := by
    apply List.sublist_mergeSort priceLe_trans priceLe_total
    · apply List.pairwise_of_forall_mem_list
      intro a ha b hb
      have ha' : a.price = p := of_decide_eq_true (List.mem_filter.mp ha).2
      have hb' : b.price = p := of_decide_eq_true (List.mem_filter.mp hb).2
      simp [priceLe, ha', hb']
    · exact List.filter_sublist l
  have hself : (l.filter (fun x => decide (x.price = p))).filter
      (fun x => decide (x.price = p)) = l.filter (fun x => decide (x.price = p)) :=
    List.filter_eq_self.mpr (fun a ha => (List.mem_filter.mp ha).2)
  have hsub : List.Sublist (l.filter (fun x => decide (x.price = p)))
      ((List.mergeSort l priceLe).filter (fun x => decide (x.price = p))) :=
    hself ▸ hA.filter (fun x => decide (x.price = p))
  have hperm : List.Perm
      ((List.mergeSort l priceLe).filter (fun x => decide (x.price = p)))
      (l.filter (fun x => decide (x.price = p))) :=
    (List.mergeSort_perm l priceLe).filter _
  exact (hsub.eq_of_length hperm.length_eq.symm).symm

theorem load_save (S : Finset String) :
    load_seen_urls (save_seen_urls S) = S := by
  simp only [load_seen_urls, save_seen_urls, List.map_map]
  have hid : pyStr ∘ PyJson.str = id := rfl
  rw [hid, List.map_id]
  exact Finset.sort_toFinset _ _

theorem filter_all_seen (listings : List Listing) (store : StoreState)
    (h : ∀ l ∈ listings, l.url ∈ load_seen_urls store) :
    filter_new_listings listings store = ⟨[], store, false⟩ := by
  have hnil : listings.filter
      (fun l => !(decide (l.url ∈ load_seen_urls store))) = [] := by
    rw [List.filter_eq_nil_iff]
    intro l hl
    simp [h l hl]
  simp [filter_new_listings, hnil]

/-- After `filter_new_listings`, every processed URL is in the stored
seen set (either it was already there, or it was merged and saved). -/
theorem mem_load_filter_store (listings : List Listing) (store : StoreState) :
    ∀ l ∈ listings, l.url ∈ load_seen_urls ((filter_new_listings listings store).store) := by
  intro l hl
  by_cases hemp : (listings.filter
      (fun l => !(decide (l.url ∈ load_seen_urls store)))).isEmpty
  · have heq : filter_new_listings listings store = ⟨[], store, false⟩ := by
      simp [filter_new_listings, hemp]
    rw [heq]
    have hall := List.filter_eq_nil_iff.mp (List.isEmpty_iff.mp hemp)
    have h2 := hall l hl
    simpa using h2
  · have heq : (filter_new_listings listings store).store
        = save_seen_urls (load_seen_urls store
            ∪ ((listings.filter (fun l => !(decide (l.url ∈ load_seen_urls store)))).map
                (fun l => l.url)).toFinset) := by
      simp [filter_new_listings, hemp]
    rw [heq, load_save]
    by_cases hseen : l.url ∈ load_seen_urls store
    · exact Finset.mem_union_left _ hseen
    · apply Finset.mem_union_right
      rw [List.mem_toFinset]
      exact List.mem_map_of_mem _ (List.mem_filter.mpr ⟨hl, by simp [hseen]⟩)

/-! ### Claims -/

/-- C1: Title-filter exemption invariant. For every title, search term and
blacklist entry whose lowered text occurs in the lowered term: (a) if the
entry is a default one, its loop iteration never fires; (b) as a
user-supplied entry it never changes the outcome of
`is_blacklisted_title`; (c) the gaming-PC rule never fires when the term
contains "gaming", "pc" or "setup". -/
theorem c1_title_filter_exemption (title term bad : String) (extra : List String)
    (hbad : substr (pylower bad) (pylower term) = true) :
    (bad ∈ DEFAULT_TITLE_BLACKLIST →
      entryFires bad (pylower term) (pylower title) = false)
    ∧ is_blacklisted_title title term (bad :: extra)
        = is_blacklisted_title title term extra
    ∧ ((substr "gaming" (pylower term) || substr "pc" (pylower term)
        || substr "setup" (pylower term)) = true →
      gamingFires (pylower title) (pylower term) = false) := by
  refine ⟨?_, ?_, ?_⟩
  · intro hmem
    have hlow : (pylower bad) = bad := by
      fin_cases hmem <;> decide
    rw [hlow] at hbad
    simp [entryFires, hbad]
  · simp [is_blacklisted_title, entryFires, hbad]
  · intro h
    simp only [Bool.or_eq_true] at h
    unfold gamingFires
    rcases h with (h | h) | h <;> simp [h]

/-- Witness for C1 at term "gaming pc", entry "gaming pc" (a default
entry), title "gaming pc for sale". -/
theorem c1_title_filter_exemption_witness :
    substr ((pylower "gaming pc")) ((pylower "gaming pc")) = true
    ∧ (("gaming pc" ∈ DEFAULT_TITLE_BLACKLIST →
        entryFires "gaming pc" (pylower "gaming pc") (pylower "gaming pc for sale") = false)
      ∧ is_blacklisted_title "gaming pc for sale" "gaming pc" ["gaming pc"]
          = is_blacklisted_title "gaming pc for sale" "gaming pc" []
      ∧ ((substr "gaming" (pylower "gaming pc") || substr "pc" (pylower "gaming pc")
          || substr "setup" (pylower "gaming pc")) = true →
        gamingFires (pylower "gaming pc for sale") (pylower "gaming pc") = false)) :=
  ⟨by decide,
   c1_title_filter_exemption "gaming pc for sale" "gaming pc" "gaming pc" [] (by decide)⟩

/-- C2 counterexample: the price regex captures at most two digits after
a separator, so `"1.234,00 €"` is read as `"1.23"`, the dots are then
stripped and the result is 123, not 1234 as the claim states. -/
theorem c2_counterexample :
    ¬ (parse_price "1.234,00 €" = some ((1234 : ℚ))) := by decide

/-- C2 amended: price normalization returns 123.45 (that is,
`mkRat 12345 100`) for `"123,45 €"`, 123 for `"1.234,00 €"` (the numeric
run captured is `"1.23"`), and no price for `"zu verschenken"` and `""`. -/
theorem c2_price_normalization :
    parse_price "123,45 €" = some (mkRat 12345 100)
    ∧ parse_price "1.234,00 €" = some ((123 : ℚ))
    ∧ parse_price "zu verschenken" = none
    ∧ parse_price "" = none := by decide

/-- C3 counterexample: for term "gaming pc" and title "gaming pc for
sale" the filter DOES exclude the candidate — the gaming-PC rule is
exempt, but the default entry `"pc "` (trailing space) is not a
substring of "gaming pc" and occurs in the title. -/
theorem c3_counterexample :
    ¬ (is_blacklisted_title "gaming pc for sale" "gaming pc" [] = false) := by decide

/-- C3 amended: both example titles are excluded: "gaming pc for sale"
under term "gaming pc" (via the default entry `"pc "`), and
"gaming pc bundle" under term "graphics card" (via the gaming-PC rule). -/
theorem c3_title_filter_examples :
    is_blacklisted_title "gaming pc for sale" "gaming pc" [] = true
    ∧ is_blacklisted_title "gaming pc bundle" "graphics card" [] = true := by decide

/-- C4: over any concatenated survivor list, deduplication keeps exactly
the first listing per distinct URL; the final output has pairwise
distinct URLs, is sorted ascending by price, contains only input
elements, and ties keep their first-encounter order (stability). -/
theorem c4_dedup_and_stable_sort (hits : List Listing) :
    (∀ x : Listing, x ∈ dedupByUrl hits
        ↔ hits.find? (fun y => y.url == x.url) = some x)
    ∧ ((sortByPrice (dedupByUrl hits)).map (fun x => x.url)).Nodup
    ∧ (sortByPrice (dedupByUrl hits)).Pairwise (fun a b => a.price ≤ b.price)
    ∧ (∀ x : Listing, x ∈ sortByPrice (dedupByUrl hits) → x ∈ hits)
    ∧ (∀ p : ℚ, (sortByPrice (dedupByUrl hits)).filter (fun x => decide (x.price = p))
          = (dedupByUrl hits).filter (fun x => decide (x.price = p))) := by
  refine ⟨?_, ?_, sortByPrice_sorted _, ?_, fun p => sortByPrice_filter_price _ p⟩
  · intro x
    rw [dedupByUrl, mem_dedupGo]
    simp
  · have hnodup := dedupGo_urls_nodup hits []
    have hperm := (sortByPrice_perm (dedupByUrl hits)).map (fun x => x.url)
    rw [dedupByUrl] at *
    exact hperm.nodup_iff.mpr hnodup
  · intro x hx
    have hx' := (sortByPrice_perm _).mem_iff.mp hx
    exact (dedupGo_sublist hits []).subset hx'

/-- C5: notify-mode idempotence. With a fixed (pure) candidate source,
running the pipeline a second time on the stored state left by the first
run finds no new listings and performs no write. -/
theorem c5_notify_idempotent (fetch : String → Except String (List Listing))
    (search_terms : List SearchTermConfig) (gmin gmax : Option ℚ)
    (store : StoreState) :
    (run_once_notify fetch search_terms gmin gmax
        (run_once_notify fetch search_terms gmin gmax store).store).new_listings = []
    ∧ (run_once_notify fetch search_terms gmin gmax
        (run_once_notify fetch search_terms gmin gmax store).store).wrote = false := by
  have h := filter_all_seen (find_matching_listings fetch search_terms gmin gmax)
    ((filter_new_listings (find_matching_listings fetch search_terms gmin gmax) store).store)
    (mem_load_filter_store _ store)
  unfold run_once_notify
  rw [h]
  exact ⟨rfl, rfl⟩

/-- C6: TermSpec parsing of the three spec examples. -/
theorem c6_termspec_parsing :
    parse_search_term_arg "a|b:10-20"
      = .ok [{ term := "a", min_price := some 10, max_price := some 20 },
             { term := "b", min_price := some 10, max_price := some 20 }]
    ∧ parse_search_term_arg "term:15"
      = .ok [{ term := "term", min_price := some 15, max_price := none }]
    ∧ parse_search_term_arg "term:20-10"
      = .error "invalid price range: max smaller than min" := by decide

/-- C7 counterexample: `"a| |b"` is NOT rejected — the empty variant is
silently dropped and the argument parses to the two terms "a" and "b". -/
theorem c7_counterexample :
    parse_search_term_arg "a| |b" = .ok [{ term := "a" }, { term := "b" }] := by
  decide

/-- C7 amended: an argument whose term-group is empty after trimming
(i.e. has no non-empty variant) fails with a validation error, as do an
unparseable numeric bound and max < min; but an empty variant alongside
non-empty ones is dropped, not rejected. -/
theorem c7_validation_errors :
    (∀ arg : String,
      ((pysplit (pystrip (pypartition arg ':').1) '|').map pystrip).filter
          (fun t => t ≠ "") = [] →
      (parse_search_term_arg arg).isOk = false)
    ∧ parse_search_term_arg "a| |b" = .ok [{ term := "a" }, { term := "b" }]
    ∧ (parse_search_term_arg "t:abc").isOk = false
    ∧ (parse_search_term_arg "t:5-abc").isOk = false
    ∧ (parse_search_term_arg "t:20-10").isOk = false := by
  refine ⟨?_, by decide, by decide, by decide, by decide⟩
  intro arg h
  by_cases h1 : pystrip (pypartition arg ':').1 = ""
  · simp [parse_search_term_arg, h1, Except.isOk, Except.toBool]
  · simp only [parse_search_term_arg, h1, if_false, ite_false]
    rw [h]
    rfl

/-- Witness for C7 at the all-blank argument `" | "`. -/
theorem c7_validation_errors_witness :
    (((pysplit (pystrip (pypartition " | " ':').1) '|').map pystrip).filter
        (fun t => t ≠ "") = [])
    ∧ (parse_search_term_arg " | ").isOk = false :=
  ⟨by decide, c7_validation_errors.1 " | " (by decide)⟩

/-- C8: a fetched candidate survives the price filter iff its price is
at least the effective minimum and at most the effective maximum, where
each effective bound is the TermSpec's own bound when set and otherwise
the global one, and an absent bound is unconstrained. -/
theorem c8_price_range_filter (fetch : String → Except String (List Listing))
    (cfg : SearchTermConfig) (gmin gmax : Option ℚ)
    (listings : List Listing) (l : Listing)
    (hf : fetch cfg.term = .ok listings) (hl : l ∈ listings) :
    (l ∈ survivorsForTerm fetch cfg gmin gmax
      ↔ (∀ m, effective_min cfg gmin = some m → m ≤ l.price)
        ∧ (∀ m, effective_max cfg gmax = some m → l.price ≤ m)) := by
  unfold survivorsForTerm
  rw [hf]
  simp only [List.mem_filter, hl, true_and]
  unfold pricePass
  rcases hm : effective_min cfg gmin with _ | m₁ <;>
    rcases hM : effective_max cfg gmax with _ | m₂ <;>
      simp [not_lt]

/-- Witness for C8: the 150-priced listing of the spec's end-to-end
example survives for `laptop:100-300`. -/
theorem c8_price_range_filter_witness :
    demoFetch8 demoCfg8.term = .ok demoListings8
    ∧ demoListing8 ∈ demoListings8
    ∧ (demoListing8 ∈ survivorsForTerm demoFetch8 demoCfg8 none none
        ↔ (∀ m, effective_min demoCfg8 none = some m → m ≤ demoListing8.price)
          ∧ (∀ m, effective_max demoCfg8 none = some m → demoListing8.price ≤ m)) :=
  ⟨rfl, by decide,
   c8_price_range_filter demoFetch8 demoCfg8 none none demoListings8 demoListing8 rfl (by decide)⟩

/-- C9: seen-state load is total for the caller: every backing-store
condition (missing, unreadable, invalid JSON, JSON that is not a list)
loads as the empty set, and a JSON list of strings loads as the set of
those strings. -/
theorem c9_seen_state_load_total :
    load_seen_urls StoreState.missing = ∅
    ∧ load_seen_urls StoreState.unreadable = ∅
    ∧ (∀ raw : String, load_seen_urls (StoreState.notJson raw) = ∅)
    ∧ (∀ v : PyJson, (∀ items, v ≠ PyJson.arr items) →
        load_seen_urls (StoreState.json v) = ∅)
    ∧ (∀ ss : List String,
        load_seen_urls (StoreState.json (PyJson.arr (ss.map PyJson.str)))
          = ss.toFinset) := by
  refine ⟨rfl, rfl, fun raw => rfl, ?_, ?_⟩
  · intro v hv
    cases v with
    | arr items => exact absurd rfl (hv items)
    | str s => rfl
    | num q => rfl
    | boolean b => rfl
    | null => rfl
    | obj fields => rfl
  · intro ss
    show ((ss.map PyJson.str).map pyStr).toFinset = ss.toFinset
    rw [List.map_map, show pyStr ∘ PyJson.str = id from rfl, List.map_id]

/-- Witness for C9 at a non-list value and a two-element list. -/
theorem c9_seen_state_load_total_witness :
    (∀ items, PyJson.null ≠ PyJson.arr items)
    ∧ load_seen_urls (StoreState.json PyJson.null) = ∅
    ∧ load_seen_urls (StoreState.json (PyJson.arr (["a", "b"].map PyJson.str)))
        = (["a", "b"] : List String).toFinset :=
  ⟨fun _ h => PyJson.noConfusion h,
   c9_seen_state_load_total.2.2.2.1 PyJson.null (fun _ h => PyJson.noConfusion h),
   c9_seen_state_load_total.2.2.2.2 ["a", "b"]⟩

/-- C10: frame property of the inter-run filter: when every URL is
already seen, nothing is returned and the stored state is unchanged with
no write; in general a write happens iff some listing is new. -/
theorem c10_no_write_when_no_new (listings : List Listing) (store : StoreState) :
    ((∀ l ∈ listings, l.url ∈ load_seen_urls store) →
      filter_new_listings listings store = ⟨[], store, false⟩)
    ∧ ((filter_new_listings listings store).wrote = true
        ↔ (filter_new_listings listings store).new_listings ≠ []) := by
  refine ⟨filter_all_seen listings store, ?_⟩
  by_cases hemp : (listings.filter
      (fun l => !(decide (l.url ∈ load_seen_urls store)))).isEmpty
  · simp [filter_new_listings, hemp]
  · have hne : listings.filter
        (fun l => !(decide (l.url ∈ load_seen_urls store))) ≠ [] := by
      simpa [List.isEmpty_iff] using hemp
    simp [filter_new_listings, hemp, hne]

/-- Witness for C10: a single listing whose URL is already stored. -/
theorem c10_no_write_when_no_new_witness :
    (∀ l ∈ [demoListing10], l.url ∈ load_seen_urls demoStore10)
    ∧ filter_new_listings [demoListing10] demoStore10 = ⟨[], demoStore10, false⟩
    ∧ ((filter_new_listings [demoListing10] demoStore10).wrote = true
        ↔ (filter_new_listings [demoListing10] demoStore10).new_listings ≠ []) :=
  ⟨by decide, (c10_no_write_when_no_new [demoListing10] demoStore10).1 (by decide),
   (c10_no_write_when_no_new [demoListing10] demoStore10).2⟩

end DealFinder
